import Mathlib

/-!
Verification development for the phemex-trade-mcp contract-routing and
fixed-point value-scaling core.

The embedding translates `src/product-info.ts` (class `ProductInfoCache`) and
`src/contract-router.ts` (class `ContractRouter`, table `ENDPOINTS`).

Modelling conventions:
* JavaScript numbers are modelled as exact rationals (`ℚ`).  The code under
  study only multiplies/divides decimal values by powers of ten and rounds,
  which is exact on the rationals for the in-precision inputs the claims
  quantify over; IEEE-754 double rounding is abstracted away.
* `Map<string, T>` and plain objects are association lists in insertion
  order; `Map.set` / property assignment overwrites the value at an existing
  key in place, otherwise appends.
* Methods that `throw` return `Except String`.
* `parseFloat` is modelled on fully consumed plain decimal literals
  (optional sign, digits, optional fraction); other inputs - which produce
  `NaN` in JavaScript - are modelled as a parse failure.
* `Number.prototype.toString` is modelled as the canonical positional
  decimal rendering without padding (no exponential notation).
-/

/-! ## JavaScript string and map primitives -/

/-- Model of `String.prototype.startsWith`. -/
def jsStartsWith (s p : String) : Bool := p.data.isPrefixOf s.data

/-- Model of `String.prototype.endsWith`. -/
def jsEndsWith (s p : String) : Bool := p.data.isSuffixOf s.data

/-- Model of `s.slice(0, -n)`: drop the last `n` characters. -/
def jsSliceDropEnd (s : String) (n : ℕ) : String :=
  String.mk (s.data.take (s.data.length - n))

/-- Model of `s.slice(n)`: drop the first `n` characters. -/
def jsSliceFrom (s : String) (n : ℕ) : String := String.mk (s.data.drop n)

/-- Model of `Map.prototype.get` / object property lookup: first binding. -/
def jsGet {α : Type} : List (String × α) → String → Option α
  | [], _ => none
  | (k', v') :: rest, k => if k' = k then some v' else jsGet rest k

/-- Model of `Map.prototype.set` / object property assignment: overwrite the
value at an existing key keeping its position, otherwise append. -/
def jsSet {α : Type} : List (String × α) → String → α → List (String × α)
  | [], k, v => [(k, v)]
  | (k', v') :: rest, k, v =>
    if k' = k then (k, v) :: rest else (k', v') :: jsSet rest k v

/-- Model of the `key in obj` test. -/
def jsHas {α : Type} (m : List (String × α)) (k : String) : Bool :=
  (jsGet m k).isSome

/-! ## JavaScript number primitives (exact-rational model) -/

/-- Numeric value of a decimal digit character. -/
def digitVal (c : Char) : ℕ := c.toNat - '0'.toNat

/-- Value of a digit run read most-significant first. -/
def digitsToNat (l : List Char) : ℕ := l.foldl (fun a c => 10 * a + digitVal c) 0

/-- `parseFloat` on an unsigned plain decimal literal: digits, optionally
followed by `.` and more digits, at least one digit overall, nothing after. -/
def parseUnsignedDecimal (l : List Char) : Option ℚ :=
  let ip := l.takeWhile Char.isDigit
  let rest := l.dropWhile Char.isDigit
  match rest with
  | [] => if ip.isEmpty then none else some (digitsToNat ip : ℚ)
  | '.' :: rest2 =>
    let fp := rest2.takeWhile Char.isDigit
    let rest3 := rest2.dropWhile Char.isDigit
    if rest3.isEmpty && !(ip.isEmpty && fp.isEmpty) then
      some ((digitsToNat ip : ℚ) + (digitsToNat fp : ℚ) / 10 ^ fp.length)
    else none
  | _ => none

/-- Model of `parseFloat` on a fully consumed plain decimal literal
(optional leading minus).  Inputs outside this grammar yield `NaN` in
JavaScript and are modelled as `none`. -/
def parseDecimal (s : String) : Option ℚ :=
  match s.data with
  | '-' :: rest => (parseUnsignedDecimal rest).map (fun q => -q)
  | l => parseUnsignedDecimal l

/-- Model of `Math.round`: round half toward positive infinity. -/
def jsRound (q : ℚ) : ℤ := ⌊q + 1 / 2⌋

/-- Remove trailing zero digits of `n` while fractional places remain:
the pair `(n, e)` denotes `n / 10 ^ e`. -/
def stripTrailingZeros : ℤ → ℕ → ℤ × ℕ
  | n, 0 => (n, 0)
  | n, e + 1 => if n % 10 = 0 then stripTrailingZeros (n / 10) e else (n, e + 1)

/-- Pad a digit run with leading `'0'` up to length `n`. -/
def padLeftZeros (s : List Char) (n : ℕ) : List Char :=
  List.replicate (n - s.length) '0' ++ s

/-- Canonical decimal rendering of `n / 10 ^ e`: strip trailing fractional
zeros, then print sign, integer part, and (if any places remain) `.` and the
fractional digits. -/
def decString (n : ℤ) (e : ℕ) : String :=
  let p := stripTrailingZeros n e
  if p.2 = 0 then toString p.1
  else
    let digits := padLeftZeros (toString p.1.natAbs).data (p.2 + 1)
    let ip := digits.take (digits.length - p.2)
    let fp := digits.drop (digits.length - p.2)
    (if p.1 < 0 then "-" else "") ++ String.mk ip ++ "." ++ String.mk fp

/-- Least `e' ≥ e` (within `fuel`) with `den ∣ 10 ^ e'`. -/
def decExpAux (den : ℕ) : ℕ → ℕ → Option ℕ
  | e, 0 => if 10 ^ e % den = 0 then some e else none
  | e, fuel + 1 => if 10 ^ e % den = 0 then some e else decExpAux den (e + 1) fuel

/-- Model of `Number.prototype.toString` for the values this code produces:
rationals with a decimal (2·5-smooth) denominator are rendered as their
canonical finite positional decimal.  The fallback branch is unreachable for
values arising from fixed-point scaling. -/
def jsNumToString (q : ℚ) : String :=
  match decExpAux q.den 0 400 with
  | some e => decString (q.num * ((10 ^ e) / q.den : ℕ)) e
  | none => toString q.num ++ "/" ++ toString q.den

/-! ## Data model (`src/types.ts`) -/

/-- `export type ContractType = "linear" | "inverse" | "spot"`. -/
inductive ContractType where
  | linear
  | inverse
  | spot
deriving DecidableEq, Repr

/-- `export interface ProductInfo` from `src/types.ts`. -/
structure ProductInfo where
  symbol : String
  contractType : ContractType
  priceScale : ℚ
  ratioScale : ℚ
  valueScale : ℚ
  contractSize : ℚ
deriving DecidableEq, Repr

/-- JSON-like value tree, the domain of `convertResponse`.  `undefined` is
identified with `null` (the code treats both as pass-through scalars). -/
inductive Json where
  | null
  | bool (b : Bool)
  | num (q : ℚ)
  | str (s : String)
  | arr (items : List Json)
  | obj (entries : List (String × Json))

/-- `typeof value === "number"`. -/
def isNumVal : Json → Bool
  | .num _ => true
  | _ => false

/-- Numeric payload of a `Json.num` (unused default elsewhere). -/
def numVal : Json → ℚ
  | .num q => q
  | _ => 0

/-- `value !== null && typeof value === "object"`: objects and arrays. -/
def isObjOrArr : Json → Bool
  | .obj _ => true
  | .arr _ => true
  | _ => false

/-! ## `ProductInfoCache` (`src/product-info.ts`) -/

/-- The mutable fields of class `ProductInfoCache`. -/
structure ProductInfoCache where
  baseUrl : String
  cache : List (String × ProductInfo)
  loaded : Bool
  currencyScales : List (String × ℚ)
deriving DecidableEq, Repr

namespace ProductInfoCache

/-- The constructor: empty maps, not loaded. -/
def initial (baseUrl : String) : ProductInfoCache := ⟨baseUrl, [], false, []⟩

/-- `isLoaded()`. -/
def isLoaded (self : ProductInfoCache) : Bool := self.loaded

/-- `get(symbol)`. -/
def get (self : ProductInfoCache) (symbol : String) : Option ProductInfo :=
  jsGet self.cache symbol

/-- `scalePrice(symbol, decimal)`: throws (`Except.error`) when the symbol is
absent, otherwise `Math.round(parseFloat(decimal) * info.priceScale)`. -/
def scalePrice (self : ProductInfoCache) (symbol decimal : String) :
    Except String ℤ :=
  match jsGet self.cache symbol with
  | none => .error ("No product info for " ++ symbol)
  | some info =>
    match parseDecimal decimal with
    | none => .error "NaN"
    | some q => .ok (jsRound (q * info.priceScale))

/-- `scaleRatio(symbol, decimal)`. -/
def scaleRatio (self : ProductInfoCache) (symbol decimal : String) :
    Except String ℤ :=
  match jsGet self.cache symbol with
  | none => .error ("No product info for " ++ symbol)
  | some info =>
    match parseDecimal decimal with
    | none => .error "NaN"
    | some q => .ok (jsRound (q * info.ratioScale))

/-- `scaleValue(symbol, decimal)`. -/
def scaleValue (self : ProductInfoCache) (symbol decimal : String) :
    Except String ℤ :=
  match jsGet self.cache symbol with
  | none => .error ("No product info for " ++ symbol)
  | some info =>
    match parseDecimal decimal with
    | none => .error "NaN"
    | some q => .ok (jsRound (q * info.valueScale))

/-- `unscalePrice(symbol, scaled)`: `(scaled / info.priceScale).toString()`. -/
def unscalePrice (self : ProductInfoCache) (symbol : String) (scaled : ℤ) :
    Except String String :=
  match jsGet self.cache symbol with
  | none => .error ("No product info for " ++ symbol)
  | some info => .ok (jsNumToString ((scaled : ℚ) / info.priceScale))

/-- `scaleCurrencyAmount(currency, decimal)`. -/
def scaleCurrencyAmount (self : ProductInfoCache) (currency decimal : String) :
    Except String ℤ :=
  match jsGet self.currencyScales currency with
  | none => .error ("No currency info for " ++ currency)
  | some scale =>
    match parseDecimal decimal with
    | none => .error "NaN"
    | some q => .ok (jsRound (q * scale))

/-- `unscaleCurrencyAmount(currency, amountEv)`. -/
def unscaleCurrencyAmount (self : ProductInfoCache) (currency : String)
    (amountEv : ℤ) : Except String String :=
  match jsGet self.currencyScales currency with
  | none => .error ("No currency info for " ++ currency)
  | some scale => .ok (jsNumToString ((amountEv : ℚ) / scale))

end ProductInfoCache

namespace ProductInfoCache

mutual

/-- `convertResponse(symbol, data)`: `null`/`undefined` and scalars pass
through; arrays map recursively; objects pass through unchanged when the
symbol has no cached info, otherwise their entries are rewritten. -/
def convertResponse (self : ProductInfoCache) (symbol : String) : Json → Json
  | .null => .null
  | .bool b => .bool b
  | .num q => .num q
  | .str s => .str s
  | .arr items => .arr (convertItems self symbol items)
  | .obj entries =>
    match jsGet self.cache symbol with
    | none => .obj entries
    | some info => .obj (convertEntries self symbol info entries entries [])

/-- `data.map(item => this.convertResponse(symbol, item))`. -/
def convertItems (self : ProductInfoCache) (symbol : String) :
    List Json → List Json
  | [] => []
  | x :: xs => convertResponse self symbol x :: convertItems self symbol xs

/-- The `for (const [key, value] of Object.entries(obj))` loop of
`convertResponse`: `whole` is the object being iterated (for the sibling
`in obj` tests), the first list argument the remaining entries, the second
the `result` accumulator. -/
def convertEntries (self : ProductInfoCache) (symbol : String)
    (info : ProductInfo) (whole : List (String × Json)) :
    List (String × Json) → List (String × Json) → List (String × Json)
  | [], result => result
  | (key, value) :: rest, result =>
    if jsEndsWith key "Ep" && isNumVal value then
      convertEntries self symbol info whole rest
        (jsSet result (jsSliceDropEnd key 2)
          (.str (jsNumToString (numVal value / info.priceScale))))
    else if jsEndsWith key "Er" && isNumVal value then
      convertEntries self symbol info whole rest
        (jsSet result (jsSliceDropEnd key 2)
          (.str (jsNumToString (numVal value / info.ratioScale))))
    else if jsEndsWith key "Ev" && isNumVal value then
      convertEntries self symbol info whole rest
        (jsSet result (jsSliceDropEnd key 2)
          (.str (jsNumToString (numVal value / info.valueScale))))
    else if jsHas whole (key ++ "Ep") || jsHas whole (key ++ "Er")
        || jsHas whole (key ++ "Ev") then
      convertEntries self symbol info whole rest result
    else if isObjOrArr value then
      convertEntries self symbol info whole rest
        (jsSet result key (convertResponse self symbol value))
    else
      convertEntries self symbol info whole rest (jsSet result key value)

end

end ProductInfoCache

/-! ## Product-metadata population (`ProductInfoCache.init`) -/

/-- `interface RawCurrency`.  The claims assume the metadata endpoint reports
nonnegative integer scale exponents, so exponents are `ℕ`. -/
structure RawCurrency where
  currency : String
  valueScale : ℕ
deriving DecidableEq, Repr

/-- `interface RawProduct`. -/
structure RawProduct where
  symbol : String
  type : String
  status : String
  settleCurrency : String
  priceScale : ℕ
  ratioScale : ℕ
  contractSize : Option ℚ
deriving DecidableEq, Repr

/-- `interface RawProductV2`.  `none` models an absent/`undefined` exponent
(the code guards with JavaScript truthiness, which also treats `0` as
absent). -/
structure RawProductV2 where
  symbol : String
  type : String
  status : String
  settleCurrency : String
  priceScale : Option ℕ
  ratioScale : Option ℕ
deriving DecidableEq, Repr

/-- The `data` member of the `/public/products` response envelope. -/
structure ProductsData where
  currencies : Option (List RawCurrency)
  products : Option (List RawProduct)
  perpProductsV2 : Option (List RawProductV2)
deriving DecidableEq, Repr

/-- The `/public/products` response envelope. -/
structure ProductsResponse where
  code : ℤ
  data : ProductsData
deriving DecidableEq, Repr

namespace ProductInfoCache

/-- `p.priceScale ? Math.pow(10, p.priceScale) : 1`: JavaScript truthiness
maps both an absent exponent and exponent `0` to factor `1`. -/
def truthyPow10 : Option ℕ → ℚ
  | none => 1
  | some e => if e = 0 then 1 else 10 ^ e

/-- One step of the `data.data.currencies` loop of `init`. -/
def addCurrency (self : ProductInfoCache) (c : RawCurrency) : ProductInfoCache :=
  { self with
    currencyScales := jsSet self.currencyScales c.currency ((10 : ℚ) ^ c.valueScale) }

/-- One step of the `data.data.products` loop of `init` (inverse and spot
products; only `Listed` ones are retained). -/
def addProduct (self : ProductInfoCache) (p : RawProduct) : ProductInfoCache :=
  if p.status ≠ "Listed" then self
  else if p.type = "Perpetual" then
    let valueScale := (jsGet self.currencyScales p.settleCurrency).getD ((10 : ℚ) ^ 8)
    { self with
      cache := jsSet self.cache p.symbol
        ⟨p.symbol, ContractType.inverse, 10 ^ p.priceScale, 10 ^ p.ratioScale,
          valueScale, p.contractSize.getD 1⟩ }
  else if p.type = "Spot" then
    let valueScale := (jsGet self.currencyScales p.settleCurrency).getD ((10 : ℚ) ^ 8)
    { self with
      cache := jsSet self.cache p.symbol
        ⟨p.symbol, ContractType.spot, 10 ^ p.priceScale, 10 ^ p.ratioScale,
          valueScale, 1⟩ }
  else self

/-- One step of the `data.data.perpProductsV2` loop of `init` (linear
products). -/
def addProductV2 (self : ProductInfoCache) (p : RawProductV2) : ProductInfoCache :=
  if p.status = "Listed" then
    { self with
      cache := jsSet self.cache p.symbol
        ⟨p.symbol, ContractType.linear, truthyPow10 p.priceScale,
          truthyPow10 p.ratioScale, 1, 1⟩ }
  else self

/-- `init()`.  The fetch is an input: `Except.error` models the fetch or JSON
decode throwing (caught by the `try`/`catch`, leaving the state untouched);
`Except.ok` carries the decoded response.  A non-zero envelope code returns
early.  Otherwise the three loops run and `loaded` is set last. -/
def init (self : ProductInfoCache) (fetched : Except Unit ProductsResponse) :
    ProductInfoCache :=
  match fetched with
  | .error _ => self
  | .ok resp =>
    if resp.code ≠ 0 then self
    else
      let st1 := (resp.data.currencies.getD []).foldl addCurrency self
      let st2 := (resp.data.products.getD []).foldl addProduct st1
      let st3 := (resp.data.perpProductsV2.getD []).foldl addProductV2 st2
      { st3 with loaded := true }

end ProductInfoCache

/-! ## `ContractRouter` (`src/contract-router.ts`) -/

/-- The closed set of logical operations routed by `ENDPOINTS`. -/
inductive Operation where
  | placeOrder
  | cancelOrder
  | amendOrder
  | cancelAll
  | setLeverage
  | switchPosMode
  | account
  | positions
  | openOrders
  | orderHistory
  | tradeHistory
  | ticker
  | orderbook
  | klines
  | recentTrades
  | fundingRate
deriving DecidableEq, Repr

/-- The static `ENDPOINTS` table: market type × operation → path.  Operations
undefined for spot map to the empty string, exactly as in the source. -/
def ENDPOINTS : ContractType → Operation → String
  | .linear, .placeOrder => "/g-orders/create"
  | .linear, .cancelOrder => "/g-orders/cancel"
  | .linear, .amendOrder => "/g-orders/replace"
  | .linear, .cancelAll => "/g-orders/all"
  | .linear, .setLeverage => "/g-positions/leverage"
  | .linear, .switchPosMode => "/g-positions/switch-pos-mode-sync"
  | .linear, .account => "/g-accounts/accountPositions"
  | .linear, .positions => "/g-accounts/positions"
  | .linear, .openOrders => "/g-orders/activeList"
  | .linear, .orderHistory => "/api-data/g-futures/orders"
  | .linear, .tradeHistory => "/api-data/g-futures/trades"
  | .linear, .ticker => "/md/v2/ticker/24hr"
  | .linear, .orderbook => "/md/v2/orderbook"
  | .linear, .klines => "/exchange/public/md/v2/kline/list"
  | .linear, .recentTrades => "/md/v2/trade"
  | .linear, .fundingRate => "/api-data/public/data/funding-rate-history"
  | .inverse, .placeOrder => "/orders/create"
  | .inverse, .cancelOrder => "/orders/cancel"
  | .inverse, .amendOrder => "/orders/replace"
  | .inverse, .cancelAll => "/orders/all"
  | .inverse, .setLeverage => "/positions/leverage"
  | .inverse, .switchPosMode => "/positions/switch-pos-mode-sync"
  | .inverse, .account => "/accounts/accountPositions"
  | .inverse, .positions => "/accounts/positions"
  | .inverse, .openOrders => "/orders/activeList"
  | .inverse, .orderHistory => "/exchange/order/list"
  | .inverse, .tradeHistory => "/exchange/order/trade"
  | .inverse, .ticker => "/md/v1/ticker/24hr"
  | .inverse, .orderbook => "/md/orderbook"
  | .inverse, .klines => "/exchange/public/md/v2/kline"
  | .inverse, .recentTrades => "/md/trade"
  | .inverse, .fundingRate => "/api-data/public/data/funding-rate-history"
  | .spot, .placeOrder => "/spot/orders/create"
  | .spot, .cancelOrder => "/spot/orders"
  | .spot, .amendOrder => "/spot/orders"
  | .spot, .cancelAll => "/spot/orders/all"
  | .spot, .setLeverage => ""
  | .spot, .switchPosMode => ""
  | .spot, .account => ""
  | .spot, .positions => ""
  | .spot, .openOrders => "/spot/orders"
  | .spot, .orderHistory => "/api-data/spots/orders"
  | .spot, .tradeHistory => "/api-data/spots/trades"
  | .spot, .ticker => "/md/spot/ticker/24hr"
  | .spot, .orderbook => "/md/orderbook"
  | .spot, .klines => "/exchange/public/md/v2/kline/list"
  | .spot, .recentTrades => "/md/trade"
  | .spot, .fundingRate => ""

namespace ContractRouter

/-- `ContractRouter.getEndpoint`. -/
def getEndpoint (contractType : ContractType) (operation : Operation) : String :=
  ENDPOINTS contractType operation

/-- `ContractRouter.resolveSymbol`: prepend the spot prefix `s` when missing;
pass through for linear and inverse. -/
def resolveSymbol (contractType : ContractType) (symbol : String) : String :=
  if contractType = ContractType.spot ∧ jsStartsWith symbol "s" = false then
    "s" ++ symbol
  else symbol

/-- `ContractRouter.validateSymbol`: suffix-based advisory check, returning
`none` for "no error" and `some message` otherwise. -/
def validateSymbol (contractType : ContractType) (symbol : String) :
    Option String :=
  if contractType = ContractType.spot then
    let raw := if jsStartsWith symbol "s" then jsSliceFrom symbol 1 else symbol
    if jsEndsWith raw "USD" && !jsEndsWith raw "USDT" then
      some ("Symbol " ++ symbol ++
        " looks like a Coin-M symbol. Spot symbols should end in USDT (e.g. BTCUSDT).")
    else none
  else if contractType = ContractType.inverse ∧ jsEndsWith symbol "USDT" = true then
    some ("Symbol " ++ symbol ++
      " looks like a USDT-M symbol. Use contractType=\"linear\" for USDT-M symbols.")
  else if contractType = ContractType.linear ∧
      (jsEndsWith symbol "USD" && !jsEndsWith symbol "USDT") = true then
    some ("Symbol " ++ symbol ++
      " looks like a Coin-M symbol. Use contractType=\"inverse\" for Coin-M symbols.")
  else none

/-- `ContractRouter.isInverse`. -/
def isInverse (contractType : ContractType) : Bool :=
  contractType == ContractType.inverse

/-- `ContractRouter.isSpot`. -/
def isSpot (contractType : ContractType) : Bool :=
  contractType == ContractType.spot

end ContractRouter

/-! ## Helper lemmas on the primitives -/

theorem strDataEq {s t : String} (h : s.data = t.data) : s = t := by
  cases s; cases t; cases h; rfl

theorem jsGet_jsSet_self {α : Type} (m : List (String × α)) (k : String) (v : α) :
    jsGet (jsSet m k v) k = some v := by
  induction m with
  | nil => simp [jsSet, jsGet]
  | cons kv rest ih =>
    obtain ⟨k', v'⟩ := kv
    by_cases h : k' = k
    · subst h; simp [jsSet, jsGet]
    · simp [jsSet, jsGet, h, ih]

theorem jsGet_jsSet_ne {α : Type} (m : List (String × α)) (k k' : String) (v : α)
    (h : k' ≠ k) : jsGet (jsSet m k v) k' = jsGet m k' := by
  induction m with
  | nil => simp only [jsSet, jsGet, if_neg (Ne.symm h)]
  | cons kv rest ih =>
    obtain ⟨k₀, v₀⟩ := kv
    by_cases h₀ : k₀ = k
    · subst h₀
      simp only [jsSet, if_pos rfl, jsGet, if_neg (Ne.symm h)]
    · simp only [jsSet, if_neg h₀, jsGet, ih]

theorem jsGet_jsSet_cases {α : Type} (m : List (String × α)) (k s : String)
    (v w : α) (h : jsGet (jsSet m k v) s = some w) :
    w = v ∨ jsGet m s = some w := by
  by_cases hs : s = k
  · subst hs
    rw [jsGet_jsSet_self] at h
    exact Or.inl (Option.some_injective _ h).symm
  · rw [jsGet_jsSet_ne m k s v hs] at h
    exact Or.inr h

theorem jsGet_of_mem_nodup {α : Type} (m : List (String × α)) (k : String) (v : α)
    (hmem : (k, v) ∈ m) (hnd : (m.map Prod.fst).Nodup) : jsGet m k = some v := by
  induction m with
  | nil => cases hmem
  | cons kv rest ih =>
    obtain ⟨k₀, v₀⟩ := kv
    simp only [List.map_cons, List.nodup_cons] at hnd
    rcases List.mem_cons.mp hmem with h | h
    · injection h with h1 h2
      subst h1; subst h2
      simp [jsGet]
    · have hne : k₀ ≠ k := by
        intro he
        subst he
        exact hnd.1 (List.mem_map.mpr ⟨(k₀, v), h, rfl⟩)
      simp [jsGet, hne, ih h hnd.2]

theorem isPrefixOf_exists {l₁ l₂ : List Char} (h : l₁.isPrefixOf l₂ = true) :
    ∃ t, l₂ = l₁ ++ t := by
  induction l₁ generalizing l₂ with
  | nil => exact ⟨l₂, rfl⟩
  | cons a as ih =>
    cases l₂ with
    | nil => simp [List.isPrefixOf] at h
    | cons b bs =>
      simp only [List.isPrefixOf, Bool.and_eq_true, beq_iff_eq] at h
      obtain ⟨t, ht⟩ := ih h.2
      exact ⟨t, by simp [h.1, ht]⟩

theorem jsEndsWith_exists {s p : String} (h : jsEndsWith s p = true) :
    ∃ pre, s.data = pre ++ p.data := by
  unfold jsEndsWith List.isSuffixOf at h
  obtain ⟨t, ht⟩ := isPrefixOf_exists h
  refine ⟨t.reverse, ?_⟩
  have := congrArg List.reverse ht
  simpa using this

theorem jsStartsWith_s_append (s : String) : jsStartsWith ("s" ++ s) "s" = true := by
  unfold jsStartsWith
  rw [String.data_append]
  simp [List.isPrefixOf]

theorem jsRound_intCast (n : ℤ) : jsRound ((n : ℤ) : ℚ) = n := by
  unfold jsRound
  rw [Int.floor_int_add]
  norm_num

theorem jsSliceDropEnd_of_data {s : String} {pre suf : List Char}
    (h : s.data = pre ++ suf) : jsSliceDropEnd s suf.length = String.mk pre := by
  unfold jsSliceDropEnd
  rw [h]
  congr 1
  simp [List.take_left]

theorem foldl_preserve {α β : Type} (P : α → Prop) (f : α → β → α)
    (hf : ∀ a b, P a → P (f a b)) :
    ∀ (l : List β) (a : α), P a → P (l.foldl f a) := by
  intro l
  induction l with
  | nil => intro a h; exact h
  | cons x xs ih => intro a h; exact ih (f a x) (hf a x h)

/-! ## Claim C5: suffix precedence of `validateSymbol` -/

/-- C5: `validateSymbol(inverse, "BTCUSDT")` returns an error string
mentioning `linear`; `validateSymbol(linear, "BTCUSD")` returns an error
string mentioning `inverse`; `validateSymbol(inverse, "BTCUSD")` and
`validateSymbol(linear, "BTCUSDT")` return no error, because the longer
linear suffix `USDT` is checked before the shorter inverse suffix `USD`. -/
theorem validateSymbol_suffix_precedence :
    (∃ a b, ContractRouter.validateSymbol ContractType.inverse "BTCUSDT" =
      some (a ++ "linear" ++ b)) ∧
    (∃ a b, ContractRouter.validateSymbol ContractType.linear "BTCUSD" =
      some (a ++ "inverse" ++ b)) ∧
    ContractRouter.validateSymbol ContractType.inverse "BTCUSD" = none ∧
    ContractRouter.validateSymbol ContractType.linear "BTCUSDT" = none := by
  refine ⟨⟨"Symbol BTCUSDT looks like a USDT-M symbol. Use contractType=\"",
      "\" for USDT-M symbols.", by decide⟩,
    ⟨"Symbol BTCUSD looks like a Coin-M symbol. Use contractType=\"",
      "\" for Coin-M symbols.", by decide⟩,
    by decide, by decide⟩

/-! ## Claim C6: endpoint routing -/

/-- C6: `getEndpoint(linear, placeOrder)` and `getEndpoint(inverse,
placeOrder)` return different paths, each in its own market type's path
namespace (`/g-orders` vs `/orders`, the latter not `/g-` prefixed); the
spot-undefined operations setLeverage, switchPosMode and account resolve to
the empty-string sentinel. -/
theorem getEndpoint_routing :
    ContractRouter.getEndpoint ContractType.linear Operation.placeOrder ≠
      ContractRouter.getEndpoint ContractType.inverse Operation.placeOrder ∧
    jsStartsWith
      (ContractRouter.getEndpoint ContractType.linear Operation.placeOrder)
      "/g-orders" = true ∧
    jsStartsWith
      (ContractRouter.getEndpoint ContractType.inverse Operation.placeOrder)
      "/orders" = true ∧
    jsStartsWith
      (ContractRouter.getEndpoint ContractType.inverse Operation.placeOrder)
      "/g-" = false ∧
    ContractRouter.getEndpoint ContractType.spot Operation.setLeverage = "" ∧
    ContractRouter.getEndpoint ContractType.spot Operation.switchPosMode = "" ∧
    ContractRouter.getEndpoint ContractType.spot Operation.account = "" := by
  refine ⟨by decide, by decide, by decide, by decide, by decide, by decide, by decide⟩

/-! ## Claim C7: idempotence of `resolveSymbol` -/

/-- C7: for every string `s`, `resolveSymbol(spot, ·)` is idempotent, and
`resolveSymbol(linear, s)` and `resolveSymbol(inverse, s)` are the
identity. -/
theorem resolveSymbol_idempotent (s : String) :
    ContractRouter.resolveSymbol ContractType.spot
      (ContractRouter.resolveSymbol ContractType.spot s) =
      ContractRouter.resolveSymbol ContractType.spot s ∧
    ContractRouter.resolveSymbol ContractType.linear s = s ∧
    ContractRouter.resolveSymbol ContractType.inverse s = s := by
  refine ⟨?_, by simp [ContractRouter.resolveSymbol], by simp [ContractRouter.resolveSymbol]⟩
  by_cases h : jsStartsWith s "s" = false
  · have h1 : ContractRouter.resolveSymbol ContractType.spot s = "s" ++ s := by
      simp [ContractRouter.resolveSymbol, h]
    rw [h1]
    simp [ContractRouter.resolveSymbol, jsStartsWith_s_append]
  · have h1 : ContractRouter.resolveSymbol ContractType.spot s = s := by
      simp [ContractRouter.resolveSymbol, h]
    rw [h1, h1]

/-! ## Claim C4: explicit "no info" error on unknown symbol or currency -/

/-- C4: when the symbol (resp. currency) is absent from the scale table,
every scaling operation returns the distinguishable "no info" error and
never a scaled result. -/
theorem scaling_noInfo_error (self : ProductInfoCache)
    (symbol currency decimal : String)
    (hsym : jsGet self.cache symbol = none)
    (hcur : jsGet self.currencyScales currency = none) :
    ProductInfoCache.scalePrice self symbol decimal =
      Except.error ("No product info for " ++ symbol) ∧
    ProductInfoCache.scaleRatio self symbol decimal =
      Except.error ("No product info for " ++ symbol) ∧
    ProductInfoCache.scaleValue self symbol decimal =
      Except.error ("No product info for " ++ symbol) ∧
    ProductInfoCache.scaleCurrencyAmount self currency decimal =
      Except.error ("No currency info for " ++ currency) ∧
    (∀ n : ℤ, ProductInfoCache.scalePrice self symbol decimal ≠ Except.ok n) ∧
    (∀ n : ℤ, ProductInfoCache.scaleCurrencyAmount self currency decimal ≠
      Except.ok n) := by
  refine ⟨?_, ?_, ?_, ?_, ?_, ?_⟩ <;>
    simp [ProductInfoCache.scalePrice, ProductInfoCache.scaleRatio,
      ProductInfoCache.scaleValue, ProductInfoCache.scaleCurrencyAmount,
      hsym, hcur]

/-- Witness for C4 at the empty cache and the inputs of the spec's example. -/
theorem scaling_noInfo_error_witness :
    ProductInfoCache.scalePrice
      (ProductInfoCache.initial "https://api.phemex.com") "UNKNOWN" "1" =
      Except.error "No product info for UNKNOWN" ∧
    ProductInfoCache.scaleCurrencyAmount
      (ProductInfoCache.initial "https://api.phemex.com") "UNKNOWN" "1" =
      Except.error "No currency info for UNKNOWN" := by
  have h := scaling_noInfo_error
    (ProductInfoCache.initial "https://api.phemex.com") "UNKNOWN" "UNKNOWN" "1"
    rfl rfl
  exact ⟨h.1, h.2.2.2.1⟩

/-! ## Claim C8: failed init leaves the cache unloaded and empty -/

/-- C8: if the one-time `init` fails - the fetch throws, or the response
envelope's code is non-zero - the cache reports `isLoaded() = false` and
`get` is absent for every symbol. -/
theorem init_failure_not_loaded (baseUrl : String)
    (fetched : Except Unit ProductsResponse)
    (h : fetched = Except.error () ∨
      ∃ resp, fetched = Except.ok resp ∧ resp.code ≠ 0) :
    ProductInfoCache.isLoaded
      (ProductInfoCache.init (ProductInfoCache.initial baseUrl) fetched) = false ∧
    ∀ s, ProductInfoCache.get
      (ProductInfoCache.init (ProductInfoCache.initial baseUrl) fetched) s = none := by
  rcases h with h | ⟨resp, h, hcode⟩
  · subst h
    exact ⟨rfl, fun s => rfl⟩
  · subst h
    simp only [ProductInfoCache.init, if_pos hcode]
    exact ⟨rfl, fun s => rfl⟩

/-- Witness for C8 at a throwing fetch. -/
theorem init_failure_not_loaded_witness :
    ProductInfoCache.isLoaded
      (ProductInfoCache.init
        (ProductInfoCache.initial "https://api.phemex.com")
        (Except.error ())) = false ∧
    ProductInfoCache.get
      (ProductInfoCache.init
        (ProductInfoCache.initial "https://api.phemex.com")
        (Except.error ())) "BTCUSD" = none := by
  have h := init_failure_not_loaded "https://api.phemex.com"
    (Except.error ()) (Or.inl rfl)
  exact ⟨h.1, h.2 "BTCUSD"⟩

/-! ## Claim C9: populated scale factors are positive integers ≥ 1 -/

/-- The rational `x` is (the embedding of) an integer at least `1`. -/
def isPosIntFactor (x : ℚ) : Prop := ∃ n : ℤ, 1 ≤ n ∧ x = (n : ℚ)

theorem isPosIntFactor_pow (e : ℕ) : isPosIntFactor ((10 : ℚ) ^ e) :=
  ⟨10 ^ e, one_le_pow₀ (by norm_num), by push_cast; ring⟩

theorem isPosIntFactor_one : isPosIntFactor 1 := ⟨1, le_refl 1, by norm_num⟩

theorem isPosIntFactor_elim {x : ℚ} (h : isPosIntFactor x) :
    1 ≤ x ∧ ∃ n : ℤ, x = (n : ℚ) := by
  obtain ⟨n, hn, rfl⟩ := h
  exact ⟨by exact_mod_cast hn, ⟨n, rfl⟩⟩

theorem isPosIntFactor_truthyPow10 (o : Option ℕ) :
    isPosIntFactor (ProductInfoCache.truthyPow10 o) := by
  cases o with
  | none => exact isPosIntFactor_one
  | some e =>
    by_cases he : e = 0
    · simp only [ProductInfoCache.truthyPow10, if_pos he]
      exact isPosIntFactor_one
    · simp only [ProductInfoCache.truthyPow10, if_neg he]
      exact isPosIntFactor_pow e

/-- Every scale factor recorded in the state is an integer at least `1`. -/
def scalesIntGE1 (self : ProductInfoCache) : Prop :=
  (∀ s info, jsGet self.cache s = some info →
    isPosIntFactor info.priceScale ∧ isPosIntFactor info.ratioScale ∧
    isPosIntFactor info.valueScale) ∧
  (∀ c q, jsGet self.currencyScales c = some q → isPosIntFactor q)

theorem scalesIntGE1_addCurrency (st : ProductInfoCache) (c : RawCurrency)
    (h : scalesIntGE1 st) : scalesIntGE1 (ProductInfoCache.addCurrency st c) := by
  refine ⟨h.1, fun c' q hq => ?_⟩
  rcases jsGet_jsSet_cases _ _ _ _ _ hq with rfl | hold
  · exact isPosIntFactor_pow _
  · exact h.2 c' q hold

theorem scalesIntGE1_addProduct (st : ProductInfoCache) (p : RawProduct)
    (h : scalesIntGE1 st) : scalesIntGE1 (ProductInfoCache.addProduct st p) := by
  unfold ProductInfoCache.addProduct
  split
  · exact h
  · split
    · refine ⟨fun s info hinfo => ?_, h.2⟩
      rcases jsGet_jsSet_cases _ _ _ _ _ hinfo with rfl | hold
      · refine ⟨isPosIntFactor_pow _, isPosIntFactor_pow _, ?_⟩
        cases hcur : jsGet st.currencyScales p.settleCurrency with
        | none => simp only [hcur, Option.getD_none]; exact isPosIntFactor_pow 8
        | some q => simpa [hcur] using h.2 _ q hcur
      · exact h.1 s info hold
    · split
      · refine ⟨fun s info hinfo => ?_, h.2⟩
        rcases jsGet_jsSet_cases _ _ _ _ _ hinfo with rfl | hold
        · refine ⟨isPosIntFactor_pow _, isPosIntFactor_pow _, ?_⟩
          cases hcur : jsGet st.currencyScales p.settleCurrency with
          | none => simp only [hcur, Option.getD_none]; exact isPosIntFactor_pow 8
          | some q => simpa [hcur] using h.2 _ q hcur
        · exact h.1 s info hold
      · exact h

theorem scalesIntGE1_addProductV2 (st : ProductInfoCache) (p : RawProductV2)
    (h : scalesIntGE1 st) : scalesIntGE1 (ProductInfoCache.addProductV2 st p) := by
  unfold ProductInfoCache.addProductV2
  split
  · refine ⟨fun s info hinfo => ?_, h.2⟩
    rcases jsGet_jsSet_cases _ _ _ _ _ hinfo with rfl | hold
    · exact ⟨isPosIntFactor_truthyPow10 _, isPosIntFactor_truthyPow10 _,
        isPosIntFactor_one⟩
    · exact h.1 s info hold
  · exact h

/-- C9: every entry stored by a successful population step (nonnegative
integer exponents are encoded by `ℕ`) has `priceScale`, `ratioScale` and
`valueScale` positive integers: each factor is at least `1` and equals the
embedding of an integer, covering the fallback cases (`10 ^ 8` when the
settlement currency is not listed, `1` when the exponent is absent). -/
theorem init_scale_factors_ge_one (baseUrl : String) (resp : ProductsResponse)
    (s : String) (info : ProductInfo)
    (h : ProductInfoCache.get
      (ProductInfoCache.init (ProductInfoCache.initial baseUrl)
        (Except.ok resp)) s = some info) :
    (1 ≤ info.priceScale ∧ ∃ n : ℤ, info.priceScale = (n : ℚ)) ∧
    (1 ≤ info.ratioScale ∧ ∃ n : ℤ, info.ratioScale = (n : ℚ)) ∧
    (1 ≤ info.valueScale ∧ ∃ n : ℤ, info.valueScale = (n : ℚ)) := by
  by_cases hcode : resp.code ≠ 0
  · rw [show ProductInfoCache.init (ProductInfoCache.initial baseUrl)
        (Except.ok resp) = ProductInfoCache.initial baseUrl by
      simp only [ProductInfoCache.init, if_pos hcode]] at h
    exact absurd h (by simp [ProductInfoCache.get, ProductInfoCache.initial, jsGet])
  · have h0 : scalesIntGE1 (ProductInfoCache.initial baseUrl) := by
      constructor
      · intro s info hh
        exact absurd hh (by simp [ProductInfoCache.initial, jsGet])
      · intro c q hh
        exact absurd hh (by simp [ProductInfoCache.initial, jsGet])
    have h1 := foldl_preserve scalesIntGE1 ProductInfoCache.addCurrency
      scalesIntGE1_addCurrency (resp.data.currencies.getD [])
      (ProductInfoCache.initial baseUrl) h0
    have h2 := foldl_preserve scalesIntGE1 ProductInfoCache.addProduct
      scalesIntGE1_addProduct (resp.data.products.getD []) _ h1
    have h3 := foldl_preserve scalesIntGE1 ProductInfoCache.addProductV2
      scalesIntGE1_addProductV2 (resp.data.perpProductsV2.getD []) _ h2
    rw [show ProductInfoCache.init (ProductInfoCache.initial baseUrl)
        (Except.ok resp) =
        { (resp.data.perpProductsV2.getD []).foldl ProductInfoCache.addProductV2
            ((resp.data.products.getD []).foldl ProductInfoCache.addProduct
              ((resp.data.currencies.getD []).foldl ProductInfoCache.addCurrency
                (ProductInfoCache.initial baseUrl))) with loaded := true } by
      simp only [ProductInfoCache.init, if_neg hcode]] at h
    obtain ⟨hp, hr, hv⟩ := h3.1 s info h
    exact ⟨isPosIntFactor_elim hp, isPosIntFactor_elim hr, isPosIntFactor_elim hv⟩

/-- A concrete successful `/public/products` response: currency `BTC` with
exponent 8, one listed inverse perpetual `BTCUSD` with price/ratio exponent
4, no linear products. -/
def demoResp : ProductsResponse :=
  ⟨0, ⟨some [⟨"BTC", 8⟩],
    some [⟨"BTCUSD", "Perpetual", "Listed", "BTC", 4, 4, some 1⟩],
    some []⟩⟩

/-- The entry `init` stores for `BTCUSD` given `demoResp`. -/
def demoStoredInfo : ProductInfo :=
  ⟨"BTCUSD", ContractType.inverse, 10 ^ (4 : ℕ), 10 ^ (4 : ℕ), 10 ^ (8 : ℕ), 1⟩

/-- Witness for C9 at `demoResp`. -/
theorem init_scale_factors_ge_one_witness :
    (1 ≤ demoStoredInfo.priceScale ∧
      ∃ n : ℤ, demoStoredInfo.priceScale = (n : ℚ)) ∧
    (1 ≤ demoStoredInfo.ratioScale ∧
      ∃ n : ℤ, demoStoredInfo.ratioScale = (n : ℚ)) ∧
    (1 ≤ demoStoredInfo.valueScale ∧
      ∃ n : ℤ, demoStoredInfo.valueScale = (n : ℚ)) :=
  init_scale_factors_ge_one "https://api.phemex.com" demoResp "BTCUSD"
    demoStoredInfo rfl

/-! ## Claim C3: conversion is the identity for unknown symbols -/

/-- C3: for a symbol absent from the scale table, `convertResponse` returns
every JSON-like input completely unmodified. -/
theorem convertResponse_unknown_symbol_id (self : ProductInfoCache)
    (symbol : String) (h : jsGet self.cache symbol = none) (d : Json) :
    ProductInfoCache.convertResponse self symbol d = d := by
  suffices H : ∀ (n : ℕ) (d : Json), sizeOf d ≤ n →
      ProductInfoCache.convertResponse self symbol d = d from
    H (sizeOf d) d le_rfl
  intro n
  induction n with
  | zero =>
    intro d hd
    cases d <;> simp at hd
  | succ n ih =>
    have inner : ∀ l : List Json, sizeOf l ≤ n →
        ProductInfoCache.convertItems self symbol l = l := by
      intro l
      induction l with
      | nil => intro _; simp [ProductInfoCache.convertItems]
      | cons x xs ihx =>
        intro hl
        simp only [List.cons.sizeOf_spec] at hl
        simp only [ProductInfoCache.convertItems]
        rw [ih x (by omega), ihx (by omega)]
    intro d hd
    cases d with
    | null => simp [ProductInfoCache.convertResponse]
    | bool b => simp [ProductInfoCache.convertResponse]
    | num q => simp [ProductInfoCache.convertResponse]
    | str s => simp [ProductInfoCache.convertResponse]
    | obj entries => simp [ProductInfoCache.convertResponse, h]
    | arr items =>
      simp only [Json.arr.sizeOf_spec] at hd
      simp only [ProductInfoCache.convertResponse]
      rw [inner items (by omega)]

/-- Witness for C3 at the spec's example `{priceEp: 123}` and an empty
cache. -/
theorem convertResponse_unknown_symbol_id_witness :
    ProductInfoCache.convertResponse
      (ProductInfoCache.initial "https://api.phemex.com") "UNKNOWN"
      (Json.obj [("priceEp", Json.num 123)]) =
      Json.obj [("priceEp", Json.num 123)] :=
  convertResponse_unknown_symbol_id
    (ProductInfoCache.initial "https://api.phemex.com") "UNKNOWN" rfl
    (Json.obj [("priceEp", Json.num 123)])

/-! ## Claim C1: scale/unscale round-trip -/

/-- C1: for a symbol in the scale table with price scale factor `10 ^ e` and
a decimal string `d` representable at that precision (its exact value times
the factor is an integer `n`), `scalePrice` returns `n` and `unscalePrice`
maps `n` back to the canonical non-padded decimal rendering of `d`'s value
(trailing-zero formatting normalized away by `jsNumToString`). -/
theorem scalePrice_unscalePrice_roundtrip (self : ProductInfoCache)
    (symbol : String) (info : ProductInfo) (e : ℕ)
    (hinfo : jsGet self.cache symbol = some info)
    (hps : info.priceScale = 10 ^ e)
    (d : String) (q : ℚ) (n : ℤ)
    (hd : parseDecimal d = some q)
    (hn : q * info.priceScale = (n : ℚ)) :
    ProductInfoCache.scalePrice self symbol d = Except.ok n ∧
    ProductInfoCache.unscalePrice self symbol n =
      Except.ok (jsNumToString q) := by
  have hpos : (info.priceScale : ℚ) ≠ 0 := by rw [hps]; positivity
  constructor
  · simp only [ProductInfoCache.scalePrice, hinfo, hd]
    rw [hn, jsRound_intCast]
  · simp only [ProductInfoCache.unscalePrice, hinfo]
    congr 1
    rw [← hn, mul_div_cancel_right₀ _ hpos]

/-- A populated cache with the spec's `BTCUSD` example entry
(priceScaleFactor 10000) and the `BTC` currency scale. -/
def demoCache : ProductInfoCache :=
  ⟨"https://api.phemex.com", [("BTCUSD", demoStoredInfo)], true,
    [("BTC", 10 ^ (8 : ℕ))]⟩

/-- Witness for C1 at the claim's own numbers: scaling `"50000.5"` under
factor 10000 gives `500005000`, and unscaling `500005000` gives
`"50000.5"`. -/
theorem scalePrice_unscalePrice_roundtrip_witness :
    ProductInfoCache.scalePrice demoCache "BTCUSD" "50000.5" =
      Except.ok 500005000 ∧
    ProductInfoCache.unscalePrice demoCache "BTCUSD" 500005000 =
      Except.ok "50000.5" := by
  have hq : parseDecimal "50000.5" = some ((100001 : ℚ) / 2) := by
    simp +decide [parseDecimal, parseUnsignedDecimal, digitsToNat, digitVal]
    norm_num
  have h := scalePrice_unscalePrice_roundtrip demoCache "BTCUSD"
    demoStoredInfo 4 rfl rfl "50000.5" ((100001 : ℚ) / 2) 500005000 hq
    (by push_cast [demoStoredInfo]; norm_num)
  have hjs : jsNumToString ((100001 : ℚ) / 2) = "50000.5" := by
    have hmk : ((100001 : ℚ) / 2) =
        (⟨100001, 2, by norm_num, by norm_num⟩ : ℚ) := by
      rw [Rat.mk'_eq_divInt, Rat.divInt_eq_div]; norm_num
    rw [hmk]; decide
  exact ⟨h.1, by rw [h.2, hjs]⟩

/-! ## Claim C2: redundant null sibling is dropped, never overwrites -/

theorem jsNumToString_example :
    jsNumToString ((500005000 : ℚ) / 10000) = "50000.5" := by
  have hmk : ((500005000 : ℚ) / 10000) =
      (⟨100001, 2, by norm_num, by norm_num⟩ : ℚ) := by
    rw [Rat.mk'_eq_divInt, Rat.divInt_eq_div]; norm_num
  rw [hmk]; decide

theorem jsSliceDropEnd_priceEp : jsSliceDropEnd "priceEp" 2 = "price" := by decide

/-- C2: under a symbol with priceScaleFactor 10000, converting
`{priceEp: 500005000, price: null}` yields exactly `{price: "50000.5"}` in
both possible key iteration orders - the null sibling is dropped and never
overwrites the converted value. -/
theorem convertResponse_drops_null_sibling (self : ProductInfoCache)
    (symbol : String) (info : ProductInfo)
    (hinfo : jsGet self.cache symbol = some info)
    (hscale : info.priceScale = 10000) :
    ProductInfoCache.convertResponse self symbol
      (Json.obj [("priceEp", Json.num 500005000), ("price", Json.null)]) =
      Json.obj [("price", Json.str "50000.5")] ∧
    ProductInfoCache.convertResponse self symbol
      (Json.obj [("price", Json.null), ("priceEp", Json.num 500005000)]) =
      Json.obj [("price", Json.str "50000.5")] := by
  constructor <;>
  · simp only [ProductInfoCache.convertResponse, hinfo]
    simp +decide [ProductInfoCache.convertEntries, hscale, isNumVal, numVal,
      isObjOrArr, jsSet, jsHas, jsGet, jsSliceDropEnd_priceEp,
      jsNumToString_example]

/-- Witness for C2 at the populated demo cache. -/
theorem convertResponse_drops_null_sibling_witness :
    ProductInfoCache.convertResponse demoCache "BTCUSD"
      (Json.obj [("priceEp", Json.num 500005000), ("price", Json.null)]) =
      Json.obj [("price", Json.str "50000.5")] ∧
    ProductInfoCache.convertResponse demoCache "BTCUSD"
      (Json.obj [("price", Json.null), ("priceEp", Json.num 500005000)]) =
      Json.obj [("price", Json.str "50000.5")] :=
  convertResponse_drops_null_sibling demoCache "BTCUSD" demoStoredInfo rfl
    (by norm_num [demoStoredInfo])

/-! ## Claim C10: fate of a plain key with a suffixed sibling -/

/-- Lookup of a key at the top level of a JSON object value. -/
def jsonObjGet (j : Json) (k : String) : Option Json :=
  match j with
  | .obj o => jsGet o k
  | _ => none

/-- The binding `w` of key `k` in the converted object comes from a numeric
suffixed sibling of `k` in the original object `whole`, converted with the
matching scale factor of `info`. -/
def convertedFromSibling (whole : List (String × Json)) (info : ProductInfo)
    (k : String) (w : Json) : Prop :=
  (∃ v : ℚ, jsGet whole (k ++ "Ep") = some (Json.num v) ∧
    w = Json.str (jsNumToString (v / info.priceScale))) ∨
  (∃ v : ℚ, jsGet whole (k ++ "Er") = some (Json.num v) ∧
    w = Json.str (jsNumToString (v / info.ratioScale))) ∨
  (∃ v : ℚ, jsGet whole (k ++ "Ev") = some (Json.num v) ∧
    w = Json.str (jsNumToString (v / info.valueScale)))

/-- Counterexample to C10 as stated: with a numeric suffixed sibling, the
plain key `price` with the non-null value `42` is NOT absent from the
converted output - the output contains key `price` (bound to the converted
string, the original `42` being discarded). -/
theorem convertResponse_sibling_nonnull_key_present :
    ProductInfoCache.convertResponse demoCache "BTCUSD"
      (Json.obj [("priceEp", Json.num 500005000), ("price", Json.num 42)]) =
      Json.obj [("price", Json.str "50000.5")] ∧
    (jsonObjGet
      (ProductInfoCache.convertResponse demoCache "BTCUSD"
        (Json.obj [("priceEp", Json.num 500005000), ("price", Json.num 42)]))
      "price").isSome = true := by
  have heval : ProductInfoCache.convertResponse demoCache "BTCUSD"
      (Json.obj [("priceEp", Json.num 500005000), ("price", Json.num 42)]) =
      Json.obj [("price", Json.str "50000.5")] := by
    have hinfo : jsGet demoCache.cache "BTCUSD" = some demoStoredInfo := rfl
    have hscale : demoStoredInfo.priceScale = 10000 := by
      norm_num [demoStoredInfo]
    simp only [ProductInfoCache.convertResponse, hinfo]
    simp +decide [ProductInfoCache.convertEntries, hscale, isNumVal, numVal,
      isObjOrArr, jsSet, jsHas, jsGet, jsSliceDropEnd_priceEp,
      jsNumToString_example]
  refine ⟨heval, ?_⟩
  rw [heval]
  decide

/-- Invariant of the `convertEntries` loop: if every binding of `k` in the
accumulator comes from a numeric suffixed sibling, the same holds after
processing any sublist of the object's entries, provided `k` has a suffixed
sibling in the object and the object's keys are distinct. -/
theorem convertEntries_sibling_inv (self : ProductInfoCache) (symbol : String)
    (info : ProductInfo) (whole : List (String × Json)) (k : String)
    (hnd : (whole.map Prod.fst).Nodup)
    (hsib : (jsHas whole (k ++ "Ep") || jsHas whole (k ++ "Er")
      || jsHas whole (k ++ "Ev")) = true) :
    ∀ (todo acc : List (String × Json)),
      (∀ e ∈ todo, e ∈ whole) →
      (∀ w, jsGet acc k = some w → convertedFromSibling whole info k w) →
      ∀ w, jsGet (ProductInfoCache.convertEntries self symbol info whole todo acc)
        k = some w → convertedFromSibling whole info k w := by
  intro todo
  induction todo with
  | nil =>
    intro acc hsub hacc w hw
    simp only [ProductInfoCache.convertEntries] at hw
    exact hacc w hw
  | cons kv rest ih =>
    obtain ⟨key, value⟩ := kv
    intro acc hsub hacc w hw
    have hmem : (key, value) ∈ whole := hsub _ (List.mem_cons_self _ _)
    have hsubr : ∀ e ∈ rest, e ∈ whole :=
      fun e he => hsub e (List.mem_cons_of_mem _ he)
    simp only [ProductInfoCache.convertEntries] at hw
    by_cases c1 : (jsEndsWith key "Ep" && isNumVal value) = true
    · rw [if_pos c1] at hw
      simp only [Bool.and_eq_true] at c1
      obtain ⟨v, rfl⟩ : ∃ v, value = Json.num v := by
        cases value <;> first | exact ⟨_, rfl⟩ | simp [isNumVal] at c1
      simp only [numVal] at hw
      refine ih _ hsubr ?_ w hw
      intro w' hw'
      by_cases hk : jsSliceDropEnd key 2 = k
      · obtain ⟨pre, hpre⟩ := jsEndsWith_exists c1.1
        have h1 : jsSliceDropEnd key 2 = String.mk pre :=
          jsSliceDropEnd_of_data hpre
        have hmk : String.mk pre = k := by rw [← h1, hk]
        have hkey : key = k ++ "Ep" := by
          apply strDataEq
          rw [hpre, String.data_append, ← hmk]
        rw [hk, jsGet_jsSet_self] at hw'
        injection hw' with hwv
        refine Or.inl ⟨v, ?_, hwv.symm⟩
        rw [← hkey]
        exact jsGet_of_mem_nodup whole key (Json.num v) hmem hnd
      · rw [jsGet_jsSet_ne _ _ _ _ (fun he => hk he.symm)] at hw'
        exact hacc w' hw'
    · rw [if_neg c1] at hw
      by_cases c2 : (jsEndsWith key "Er" && isNumVal value) = true
      · rw [if_pos c2] at hw
        simp only [Bool.and_eq_true] at c2
        obtain ⟨v, rfl⟩ : ∃ v, value = Json.num v := by
          cases value <;> first | exact ⟨_, rfl⟩ | simp [isNumVal] at c2
        simp only [numVal] at hw
        refine ih _ hsubr ?_ w hw
        intro w' hw'
        by_cases hk : jsSliceDropEnd key 2 = k
        · obtain ⟨pre, hpre⟩ := jsEndsWith_exists c2.1
          have h1 : jsSliceDropEnd key 2 = String.mk pre :=
            jsSliceDropEnd_of_data hpre
          have hmk : String.mk pre = k := by rw [← h1, hk]
          have hkey : key = k ++ "Er" := by
            apply strDataEq
            rw [hpre, String.data_append, ← hmk]
          rw [hk, jsGet_jsSet_self] at hw'
          injection hw' with hwv
          refine Or.inr (Or.inl ⟨v, ?_, hwv.symm⟩)
          rw [← hkey]
          exact jsGet_of_mem_nodup whole key (Json.num v) hmem hnd
        · rw [jsGet_jsSet_ne _ _ _ _ (fun he => hk he.symm)] at hw'
          exact hacc w' hw'
      · rw [if_neg c2] at hw
        by_cases c3 : (jsEndsWith key "Ev" && isNumVal value) = true
        · rw [if_pos c3] at hw
          simp only [Bool.and_eq_true] at c3
          obtain ⟨v, rfl⟩ : ∃ v, value = Json.num v := by
            cases value <;> first | exact ⟨_, rfl⟩ | simp [isNumVal] at c3
          simp only [numVal] at hw
          refine ih _ hsubr ?_ w hw
          intro w' hw'
          by_cases hk : jsSliceDropEnd key 2 = k
          · obtain ⟨pre, hpre⟩ := jsEndsWith_exists c3.1
            have h1 : jsSliceDropEnd key 2 = String.mk pre :=
              jsSliceDropEnd_of_data hpre
            have hmk : String.mk pre = k := by rw [← h1, hk]
            have hkey : key = k ++ "Ev" := by
              apply strDataEq
              rw [hpre, String.data_append, ← hmk]
            rw [hk, jsGet_jsSet_self] at hw'
            injection hw' with hwv
            refine Or.inr (Or.inr ⟨v, ?_, hwv.symm⟩)
            rw [← hkey]
            exact jsGet_of_mem_nodup whole key (Json.num v) hmem hnd
          · rw [jsGet_jsSet_ne _ _ _ _ (fun he => hk he.symm)] at hw'
            exact hacc w' hw'
        · rw [if_neg c3] at hw
          by_cases c4 : (jsHas whole (key ++ "Ep") || jsHas whole (key ++ "Er")
              || jsHas whole (key ++ "Ev")) = true
          · rw [if_pos c4] at hw
            exact ih _ hsubr hacc w hw
          · rw [if_neg c4] at hw
            have hkne : key ≠ k := by
              intro he
              subst he
              exact c4 hsib
            by_cases c5 : isObjOrArr value = true
            · rw [if_pos c5] at hw
              refine ih _ hsubr ?_ w hw
              intro w' hw'
              rw [jsGet_jsSet_ne _ _ _ _ (Ne.symm hkne)] at hw'
              exact hacc w' hw'
            · rw [if_neg c5] at hw
              refine ih _ hsubr ?_ w hw
              intro w' hw'
              rw [jsGet_jsSet_ne _ _ _ _ (Ne.symm hkne)] at hw'
              exact hacc w' hw'

/-- C10 (amended): for every object with distinct keys containing a key `k`
with a suffixed sibling `k+"Ep"`/`k+"Er"`/`k+"Ev"`, the object's own entry
for `k` never survives conversion: any binding of `k` in the converted
output is the decimal-string conversion of a numeric suffixed sibling's
value; in particular, when no suffixed sibling holds a number, `k` is
absent from the output. -/
theorem convertResponse_sibling_binding (self : ProductInfoCache)
    (symbol : String) (info : ProductInfo) (entries : List (String × Json))
    (k : String) (w : Json)
    (hinfo : jsGet self.cache symbol = some info)
    (hnd : (entries.map Prod.fst).Nodup)
    (hsib : (jsHas entries (k ++ "Ep") || jsHas entries (k ++ "Er")
      || jsHas entries (k ++ "Ev")) = true)
    (hw : jsonObjGet
      (ProductInfoCache.convertResponse self symbol (Json.obj entries)) k =
      some w) :
    convertedFromSibling entries info k w := by
  simp only [ProductInfoCache.convertResponse, hinfo, jsonObjGet] at hw
  refine convertEntries_sibling_inv self symbol info entries k hnd hsib
    entries [] (fun e he => he) ?_ w hw
  intro w' hw'
  simp [jsGet] at hw'

/-- Witness for the amended C10 at the counterexample input: the surviving
binding of `price` is the conversion of the numeric sibling `priceEp`. -/
theorem convertResponse_sibling_binding_witness :
    convertedFromSibling
      [("priceEp", Json.num 500005000), ("price", Json.num 42)]
      demoStoredInfo "price" (Json.str "50000.5") := by
  have hw : jsonObjGet
      (ProductInfoCache.convertResponse demoCache "BTCUSD"
        (Json.obj [("priceEp", Json.num 500005000), ("price", Json.num 42)]))
      "price" = some (Json.str "50000.5") := by
    have hinfo : jsGet demoCache.cache "BTCUSD" = some demoStoredInfo := rfl
    have hscale : demoStoredInfo.priceScale = 10000 := by
      norm_num [demoStoredInfo]
    simp only [ProductInfoCache.convertResponse, hinfo]
    simp +decide [ProductInfoCache.convertEntries, hscale, isNumVal, numVal,
      isObjOrArr, jsSet, jsHas, jsGet, jsSliceDropEnd_priceEp,
      jsNumToString_example, jsonObjGet]
  exact convertResponse_sibling_binding demoCache "BTCUSD" demoStoredInfo
    [("priceEp", Json.num 500005000), ("price", Json.num 42)]
    "price" (Json.str "50000.5") rfl (by decide) (by decide) hw
